import Mathlib

/-!
# singleflight-sample: TTL cache and request coordinator

A shallow embedding of `main.go`: the in-memory TTL cache (`getCache`,
`setCache`), the mock producer (`getHeavyRanking`) and the HTTP handler
(`rankingHandler`) that looks the cache up and otherwise goes through
`group.Do`.

Conventions of the embedding.

* Instants (`time.Time`) and durations (`time.Duration`) are integer
  nanosecond counts; `Time.Add` is addition and `Time.After` is the strict
  order. The bounded representation inside the `time` package is not part of
  the model.
* Go strings and byte slices are both `String`; `string(data)` and
  `[]byte(s)` keep the content and are the identity here.
* The global `cache` map is a function from keys to optional entries.
* Every `time.Now()` reading that matters is an explicit argument.
* `group.Do` comes from `golang.org/x/sync/singleflight`; the handler takes it
  as a parameter.
* `World` carries the cache together with three call counters, which exist
  only to state which calls a request makes.
-/

namespace Singleflight

/-- An instant, in nanoseconds. -/
abbrev Time := Int

/-- A `time.Duration`, in nanoseconds. -/
abbrev Duration := Int

/-- Value of `time.Second`. -/
def second : Duration := 1000000000

/-- Go `error` values, identified by their message. -/
abbrev GoError := String

/-- Method `t.After(u)`: whether `t` is strictly later than `u`. -/
def After (t u : Time) : Bool := decide (u < t)

/-- Method `t.Add(d)`. -/
def Add (t : Time) (d : Duration) : Time := t + d

/-- Struct `RankingItem`. -/
structure RankingItem where
  Rank : Int
  Name : String
  Score : Int
deriving DecidableEq, Repr

/-- Struct `Ranking`. -/
structure Ranking where
  Items : List RankingItem
  UpdatedAt : Time
deriving DecidableEq, Repr

/-- Struct `cacheItem`. -/
structure cacheItem where
  data : String
  expiresAt : Time
deriving DecidableEq, Repr

/-- The global `cache` map. -/
abbrev Cache := String → Option cacheItem

/-- The map as created by `make(map[string]cacheItem)`. -/
def emptyCache : Cache := fun _ => none

/-- Function `getCache`, with the reading of `time.Now()` as `now`. -/
def getCache (cache : Cache) (now : Time) (key : String) : String × Bool :=
  match cache key with
  | none => ("", false)
  | some item => if After now item.expiresAt then ("", false) else (item.data, true)

/-- Function `setCache`, with the reading of `time.Now()` as `now`. -/
def setCache (cache : Cache) (now : Time) (key value : String) (ttl : Duration) : Cache :=
  fun k => if k = key then some { data := value, expiresAt := Add now ttl } else cache k

/-- Function `getHeavyRanking`. The `j`-th call of `rand.Intn(n)` returns
`draw j % n`; `now` is the reading of `time.Now()` for `UpdatedAt`. The sleep
has no effect on the result. -/
def getHeavyRanking (draw : Nat → Nat) (now : Time) : Except GoError Ranking :=
  let items := (List.range 10).map fun (i : Nat) =>
    ({ Rank := Int.ofNat i + 1,
       Name := "User" ++ toString (draw (2 * i) % 1000),
       Score := Int.ofNat (draw (2 * i + 1) % 10000) } : RankingItem)
  .ok { Items := items, UpdatedAt := now }

/-- Process state seen by one request: the cache, and counters of the calls
made to `group.Do`, to the producer and to `setCache`. -/
structure World where
  cache : Cache
  groupCalls : Nat
  producerCalls : Nat
  setCalls : Nat

/-- What one request reads from outside: the clock reading inside `getCache`,
the clock reading inside `setCache`, what `getHeavyRanking` returns, and the
bytes `json.Marshal` gives for a ranking. -/
structure Env where
  tGet : Time
  tSet : Time
  producer : Except GoError Ranking
  marshal : Ranking → String

/-- Result pair `(interface{}, error)` of the closure given to `group.Do`;
the value is `nil` or a byte slice. -/
structure CallResult where
  val : Option String
  err : Option GoError
deriving DecidableEq, Repr

/-- Result triple of `group.Do`. -/
structure DoResult where
  val : Option String
  err : Option GoError
  shared : Bool
deriving DecidableEq, Repr

/-- Type of `group.Do`: key, closure, then a state transformer. -/
abbrev GroupDo := String → (World → CallResult × World) → World → DoResult × World

/-- The closure passed to `group.Do` in `rankingHandler`. -/
def producerClosure (env : Env) (w : World) : CallResult × World :=
  let w1 := { w with producerCalls := w.producerCalls + 1 }
  match env.producer with
  | .error e => ({ val := none, err := some e }, w1)
  | .ok ranking =>
    let data := env.marshal ranking
    ({ val := some data, err := none },
     { w1 with
       cache := setCache w1.cache env.tSet "ranking" data (10 * second)
       setCalls := w1.setCalls + 1 })

/-- What the client receives: status code, response headers in the order they
were set, and the content. -/
structure Reply where
  code : Nat
  header : List (String × String)
  body : String
deriving DecidableEq, Repr

/-- Value of the `X-Cache` header of a reply, if set. -/
def Reply.xCache (r : Reply) : Option String := r.header.lookup "X-Cache"

/-- Call `http.Error(w, msg, code)` of net/http on a response writer with no
header set yet, which is how the handler calls it: it sets `Content-Type` to
plain text and `X-Content-Type-Options` to `nosniff`, writes the status code,
and prints the message as one line, so the content is the message followed by
a line feed. -/
def httpError (msg : String) (code : Nat) : Reply :=
  { code := code,
    header := [("Content-Type", "text/plain; charset=utf-8"),
               ("X-Content-Type-Options", "nosniff")],
    body := msg ++ "\n" }

/-- Function `rankingHandler`. The result is `none` when the type assertion
`result.([]byte)` fails. -/
def rankingHandler (Do : GroupDo) (env : Env) (w : World) : Option Reply × World :=
  match getCache w.cache env.tGet "ranking" with
  | (data, true) =>
    (some { code := 200,
            header := [("X-Cache", "HIT"), ("Content-Type", "application/json")],
            body := data }, w)
  | (_, false) =>
    match Do "ranking" (producerClosure env) { w with groupCalls := w.groupCalls + 1 } with
    | (r, w2) =>
      match r.err with
      | some _ => (some (httpError "Internal Server Error" 500), w2)
      | none =>
        let status := if r.shared then "SHARED" else "MISS"
        match r.val with
        | none => (none, w2)
        | some payload =>
          (some { code := 200,
                  header := [("X-Cache", status), ("Content-Type", "application/json")],
                  body := payload }, w2)

/-- Modelled from the spec: the Deduplication Group's `execute` (the external
`singleflight.Group.Do`) for a caller that finds no in-flight call for the key
and is joined by no follower: it runs the closure once and returns the
closure's result with `shared = false`. -/
def soloDo : GroupDo := fun _ fn w =>
  match fn w with
  | (r, w1) => ({ val := r.val, err := r.err, shared := false }, w1)

/-- A world with an empty cache and no calls made. -/
def initWorld : World :=
  { cache := emptyCache, groupCalls := 0, producerCalls := 0, setCalls := 0 }

/-! ## Sample inputs -/

/-- An environment whose producer succeeds with an empty ranking stamped 1,
serialised as a fixed text; the lookup happens at instant 1 and the store at
instant 2. -/
def okEnv : Env :=
  { tGet := 1, tSet := 2, producer := .ok { Items := [], UpdatedAt := 1 },
    marshal := fun _ => "ranking-json" }

/-- An environment whose producer fails. -/
def failEnv : Env :=
  { tGet := 1, tSet := 2, producer := .error "db down", marshal := fun _ => "ranking-json" }

/-- A world whose cache holds one entry for "ranking", written at instant 0
with the handler's ten-second lifetime. -/
def warmWorld : World :=
  { cache := setCache emptyCache 0 "ranking" "cached" (10 * second),
    groupCalls := 0, producerCalls := 0, setCalls := 0 }

/-- A `group.Do` that joins a call already in flight: it does not run the
closure and hands back that call's value with `shared = true`; meanwhile the
cache has been filled by the call's leader. -/
def joinDo (value : String) (filled : Cache) : GroupDo := fun _ _ w =>
  ({ val := some value, err := none, shared := true }, { w with cache := filled })

/-! ## Basic facts -/

/-- The mock producer never fails: it returns ten items ranked 1 to 10 and
stamps the result with its clock reading. -/
theorem getHeavyRanking_ok (draw : Nat → Nat) (now : Time) :
    ∃ r, getHeavyRanking draw now = .ok r ∧ r.Items.length = 10 ∧
      r.Items.map RankingItem.Rank = [1, 2, 3, 4, 5, 6, 7, 8, 9, 10] ∧ r.UpdatedAt = now := by
  refine ⟨_, rfl, ?_, ?_, rfl⟩
  · simp
  · simp [List.range, List.range.loop]

/-- The lookup reports an entry exactly when the map has one for the key
and the clock is not past its expiry. -/
theorem getCache_found_iff (cache : Cache) (now : Time) (key : String) :
    (getCache cache now key).2 = true ↔
      ∃ item, cache key = some item ∧ now ≤ item.expiresAt := by
  unfold getCache After
  cases h : cache key with
  | none => simp
  | some item =>
    by_cases hlt : item.expiresAt < now
    · simp [hlt]
    · simp [hlt]; exact not_lt.mp hlt

/-- A live entry is returned with its data. -/
theorem getCache_live (cache : Cache) (now : Time) (key : String) (item : cacheItem)
    (h : cache key = some item) (hle : now ≤ item.expiresAt) :
    getCache cache now key = (item.data, true) := by
  unfold getCache After
  have : ¬ item.expiresAt < now := not_lt.mpr hle
  simp [h, this]

/-- A missing entry is reported as not found. -/
theorem getCache_missing (cache : Cache) (now : Time) (key : String)
    (h : cache key = none) : getCache cache now key = ("", false) := by
  unfold getCache
  simp [h]

/-- An entry whose expiry is in the past is reported as not found. -/
theorem getCache_expired (cache : Cache) (now : Time) (key : String) (item : cacheItem)
    (h : cache key = some item) (hlt : item.expiresAt < now) :
    getCache cache now key = ("", false) := by
  unfold getCache After
  simp [h, hlt]

/-- A lookup that does not find anything returns the empty string. -/
theorem getCache_not_found (cache : Cache) (now : Time) (key : String)
    (h : (getCache cache now key).2 = false) : getCache cache now key = ("", false) := by
  unfold getCache at h ⊢
  cases hk : cache key with
  | none => rfl
  | some item =>
    rw [hk] at h
    by_cases ha : After now item.expiresAt = true
    · simp [ha]
    · simp [ha] at h

/-- The entry written by `setCache` is the one read back under the same key. -/
theorem setCache_same (cache : Cache) (now : Time) (key value : String) (ttl : Duration) :
    setCache cache now key value ttl key = some { data := value, expiresAt := now + ttl } := by
  simp [setCache, Add]

/-- On a lookup miss the handler is what it does with the result of `group.Do`. -/
theorem rankingHandler_miss (Do : GroupDo) (env : Env) (w : World)
    (h : getCache w.cache env.tGet "ranking" = ("", false)) :
    rankingHandler Do env w =
      match (Do "ranking" (producerClosure env) { w with groupCalls := w.groupCalls + 1 }).1.err with
      | some _ =>
        (some (httpError "Internal Server Error" 500),
         (Do "ranking" (producerClosure env) { w with groupCalls := w.groupCalls + 1 }).2)
      | none =>
        match (Do "ranking" (producerClosure env) { w with groupCalls := w.groupCalls + 1 }).1.val with
        | none => (none, (Do "ranking" (producerClosure env) { w with groupCalls := w.groupCalls + 1 }).2)
        | some payload =>
          (some { code := 200,
                  header := [("X-Cache",
                    if (Do "ranking" (producerClosure env)
                          { w with groupCalls := w.groupCalls + 1 }).1.shared then "SHARED"
                    else "MISS"), ("Content-Type", "application/json")],
                  body := payload },
           (Do "ranking" (producerClosure env) { w with groupCalls := w.groupCalls + 1 }).2) := by
  unfold rankingHandler
  rw [h]

/-- On a lookup hit the handler answers from the cache and touches nothing. -/
theorem rankingHandler_found (Do : GroupDo) (env : Env) (w : World) (data : String)
    (h : getCache w.cache env.tGet "ranking" = (data, true)) :
    rankingHandler Do env w =
      (some { code := 200,
              header := [("X-Cache", "HIT"), ("Content-Type", "application/json")],
              body := data }, w) := by
  unfold rankingHandler
  rw [h]

/-! ## Claims about the cache -/

/-- C2, as stated, fails at the expiry instant: with an entry for "ranking"
that expires at instant 5, a lookup at instant 5 still returns the entry
(found is true, the value is the entry's data), although the clock is not
strictly before `expiresAt`. -/
theorem getCache_at_expiry_is_found :
    getCache (setCache emptyCache 0 "ranking" "v" 5) 5 "ranking" = ("v", true) ∧
    ¬ ((getCache (setCache emptyCache 0 "ranking" "v" 5) 5 "ranking").2 = true ↔
        ∃ item, setCache emptyCache 0 "ranking" "v" 5 "ranking" = some item ∧
          (5 : Time) < item.expiresAt) := by
  have hget : getCache (setCache emptyCache 0 "ranking" "v" 5) 5 "ranking" = ("v", true) := by
    apply getCache_live _ _ _ { data := "v", expiresAt := 5 }
    · simp [setCache, Add]
    · decide
  refine ⟨hget, ?_⟩
  rw [hget]
  intro hiff
  obtain ⟨item, hitem, hlt⟩ := hiff.mp rfl
  rw [setCache_same] at hitem
  cases hitem
  exact absurd hlt (by decide)

/-- C2, amended: for every cache, key and clock reading, `getCache` returns
found = true if and only if the cache has an entry for the key and the clock
is not after that entry's `expiresAt` (so found is true when the clock equals
`expiresAt`); when found is true the value is the entry's data, and when found
is false the value is the empty string, the same for a missing entry and for
an expired one. -/
theorem getCache_found_iff_not_after (cache : Cache) (now : Time) (key : String) :
    ((getCache cache now key).2 = true ↔
        ∃ item, cache key = some item ∧ now ≤ item.expiresAt) ∧
    (∀ item, cache key = some item → (getCache cache now key).2 = true →
        (getCache cache now key).1 = item.data) ∧
    ((getCache cache now key).2 = false → (getCache cache now key).1 = "") ∧
    (cache key = none → getCache cache now key = ("", false)) ∧
    (∀ item, cache key = some item → item.expiresAt < now →
        getCache cache now key = ("", false)) := by
  refine ⟨getCache_found_iff cache now key, ?_, ?_, getCache_missing cache now key,
    getCache_expired cache now key⟩
  · intro item hitem hfound
    obtain ⟨item2, hitem2, hle⟩ := (getCache_found_iff cache now key).mp hfound
    rw [hitem] at hitem2
    cases hitem2
    rw [getCache_live cache now key item hitem hle]
  · intro h
    rw [getCache_not_found cache now key h]

/-- C3: `setCache` is total, and in the cache it yields the entry for the key
is exactly (data = value, expiresAt = now + ttl), whatever was there before,
while every other key keeps its entry or its absence of one. -/
theorem setCache_entry_and_frame (cache : Cache) (now : Time) (key value : String)
    (ttl : Duration) :
    setCache cache now key value ttl key = some { data := value, expiresAt := now + ttl } ∧
    ∀ other, other ≠ key → setCache cache now key value ttl other = cache other := by
  refine ⟨setCache_same cache now key value ttl, ?_⟩
  intro other hne
  simp [setCache, hne]

/-- C4: after `setCache(key, value, T)` at instant `t0` with `T > 0`, a lookup
of the key at `t0` and at any `t` with `t0 ≤ t < t0 + T` returns
(value, true), and a lookup at any `t > t0 + T` returns not found; for the
handler's key, a request at such a `t` never answers HIT: whatever `group.Do`
does, its reply is MISS, SHARED or the error reply. -/
theorem getCache_after_setCache (cache : Cache) (key value : String) (T : Duration)
    (t0 : Time) (hT : 0 < T) :
    getCache (setCache cache t0 key value T) t0 key = (value, true) ∧
    (∀ t, t0 ≤ t → t < t0 + T →
        getCache (setCache cache t0 key value T) t key = (value, true)) ∧
    (∀ t, t0 + T < t →
        getCache (setCache cache t0 key value T) t key = ("", false)) ∧
    (∀ (Do : GroupDo) (env : Env) (w : World),
        w.cache = setCache cache t0 "ranking" value T → t0 + T < env.tGet →
        ∀ reply, (rankingHandler Do env w).1 = some reply →
          reply.xCache ≠ some "HIT" ∧
          (reply.xCache = some "MISS" ∨ reply.xCache = some "SHARED" ∨
            reply = httpError "Internal Server Error" 500)) := by
  have hlive : ∀ t, t < t0 + T →
      getCache (setCache cache t0 key value T) t key = (value, true) := by
    intro t hlt
    exact getCache_live _ t key { data := value, expiresAt := t0 + T }
      (setCache_same cache t0 key value T) (le_of_lt hlt)
  have hdead : ∀ (k : String) t, t0 + T < t →
      getCache (setCache cache t0 k value T) t k = ("", false) := by
    intro k t hlt
    exact getCache_expired _ t k { data := value, expiresAt := t0 + T }
      (setCache_same cache t0 k value T) hlt
  refine ⟨hlive t0 (by linarith), fun t _ hlt => hlive t hlt, hdead key, ?_⟩
  intro Do env w hw hlt reply hreply
  have hmiss : getCache w.cache env.tGet "ranking" = ("", false) := by
    rw [hw]; exact hdead "ranking" env.tGet hlt
  rw [rankingHandler_miss Do env w hmiss] at hreply
  generalize Do "ranking" (producerClosure env) { w with groupCalls := w.groupCalls + 1 } = res
    at hreply
  obtain ⟨r, w2⟩ := res
  obtain ⟨val, err, shared⟩ := r
  cases err with
  | some e =>
    simp at hreply
    subst hreply
    simp [httpError, Reply.xCache, List.lookup]
  | none =>
    cases val with
    | none => simp at hreply
    | some payload =>
      simp at hreply
      subst hreply
      cases shared <;> simp [Reply.xCache, List.lookup]

/-- C4, instance: a ten-second entry written at instant 0 into the empty
cache. -/
theorem getCache_after_setCache_witness :
    (0 : Duration) < 10 * second ∧
    (getCache (setCache emptyCache 0 "ranking" "v" (10 * second)) 0 "ranking" = ("v", true) ∧
    (∀ t, (0 : Time) ≤ t → t < 0 + 10 * second →
        getCache (setCache emptyCache 0 "ranking" "v" (10 * second)) t "ranking"
          = ("v", true)) ∧
    (∀ t, 0 + 10 * second < t →
        getCache (setCache emptyCache 0 "ranking" "v" (10 * second)) t "ranking"
          = ("", false)) ∧
    (∀ (Do : GroupDo) (env : Env) (w : World),
        w.cache = setCache emptyCache 0 "ranking" "v" (10 * second) →
        0 + 10 * second < env.tGet →
        ∀ reply, (rankingHandler Do env w).1 = some reply →
          reply.xCache ≠ some "HIT" ∧
          (reply.xCache = some "MISS" ∨ reply.xCache = some "SHARED" ∨
            reply = httpError "Internal Server Error" 500))) :=
  ⟨by decide, getCache_after_setCache emptyCache "ranking" "v" (10 * second) 0 (by decide)⟩

/-! ## Claims about the handler -/

/-- C5: when the cache holds a non-expired entry for "ranking", the handler
replies with `X-Cache: HIT` and the cached data as body, and the world is
unchanged whatever `group.Do` is: no call to the group, none to the producer,
and the same cache. -/
theorem rankingHandler_hit (Do : GroupDo) (env : Env) (w : World) (item : cacheItem)
    (hentry : w.cache "ranking" = some item) (hvalid : env.tGet ≤ item.expiresAt) :
    (rankingHandler Do env w).2 = w ∧
    (rankingHandler Do env w).2.groupCalls = w.groupCalls ∧
    (rankingHandler Do env w).2.producerCalls = w.producerCalls ∧
    (rankingHandler Do env w).2.cache = w.cache ∧
    ∃ reply, (rankingHandler Do env w).1 = some reply ∧
      reply.xCache = some "HIT" ∧ reply.body = item.data ∧ reply.code = 200 := by
  rw [rankingHandler_found Do env w item.data
    (getCache_live w.cache env.tGet "ranking" item hentry hvalid)]
  exact ⟨rfl, rfl, rfl, rfl, _, rfl, rfl, rfl, rfl⟩

/-- C5, instance: a request at instant 1 against the warm cache. -/
theorem rankingHandler_hit_witness :
    (warmWorld.cache "ranking" = some { data := "cached", expiresAt := 10 * second } ∧
      okEnv.tGet ≤ 10 * second) ∧
    ((rankingHandler soloDo okEnv warmWorld).2 = warmWorld ∧
    (rankingHandler soloDo okEnv warmWorld).2.groupCalls = warmWorld.groupCalls ∧
    (rankingHandler soloDo okEnv warmWorld).2.producerCalls = warmWorld.producerCalls ∧
    (rankingHandler soloDo okEnv warmWorld).2.cache = warmWorld.cache ∧
    ∃ reply, (rankingHandler soloDo okEnv warmWorld).1 = some reply ∧
      reply.xCache = some "HIT" ∧ reply.body = "cached" ∧ reply.code = 200) :=
  ⟨⟨by simp [warmWorld, setCache, Add], by decide⟩,
   rankingHandler_hit soloDo okEnv warmWorld { data := "cached", expiresAt := 10 * second }
     (by simp [warmWorld, setCache, Add]) (by decide)⟩

/-- C6: when the lookup misses and `group.Do` returns the payload with no
error, the handler's status is MISS exactly when `shared` is false and SHARED
exactly when `shared` is true, never HIT, whatever state the call leaves
behind, and the body is the payload returned by the group. -/
theorem rankingHandler_status_of_shared (Do : GroupDo) (env : Env) (w w2 : World)
    (payload : String) (shared : Bool)
    (hmiss : (getCache w.cache env.tGet "ranking").2 = false)
    (hdo : Do "ranking" (producerClosure env) { w with groupCalls := w.groupCalls + 1 } =
      ({ val := some payload, err := none, shared := shared }, w2)) :
    ∃ reply, rankingHandler Do env w = (some reply, w2) ∧
      (reply.xCache = some "MISS" ↔ shared = false) ∧
      (reply.xCache = some "SHARED" ↔ shared = true) ∧
      reply.xCache ≠ some "HIT" ∧ reply.body = payload ∧ reply.code = 200 := by
  rw [rankingHandler_miss Do env w (getCache_not_found _ _ _ hmiss), hdo]
  refine ⟨_, rfl, ?_⟩
  cases shared <;> simp [Reply.xCache, List.lookup]

/-- C6, instance: a follower on a cold cache, told the value after the cache
was filled. -/
theorem rankingHandler_status_of_shared_witness :
    (getCache initWorld.cache okEnv.tGet "ranking").2 = false ∧
    ∃ reply, rankingHandler (joinDo "ranking-json" warmWorld.cache) okEnv initWorld =
        (some reply, { cache := warmWorld.cache, groupCalls := 1, producerCalls := 0,
                       setCalls := 0 }) ∧
      (reply.xCache = some "MISS" ↔ true = false) ∧
      (reply.xCache = some "SHARED" ↔ true = true) ∧
      reply.xCache ≠ some "HIT" ∧ reply.body = "ranking-json" ∧ reply.code = 200 :=
  ⟨by decide,
   rankingHandler_status_of_shared (joinDo "ranking-json" warmWorld.cache) okEnv initWorld _ "ranking-json" true
     (by decide) rfl⟩

/-- C7: if the producer returns an error, the closure given to `group.Do`
returns that same error and no value, without calling `setCache`, so its cache
is the one it started from; a request whose closure is run by the group then
ends with the cache it began with. -/
theorem producerClosure_error_keeps_cache (env : Env) (w : World) (e : GoError)
    (herr : env.producer = .error e) :
    (producerClosure env w).1 = { val := none, err := some e } ∧
    (producerClosure env w).2.setCalls = w.setCalls ∧
    (producerClosure env w).2.cache = w.cache ∧
    (rankingHandler soloDo env w).2.cache = w.cache := by
  have hclosure : producerClosure env w =
      ({ val := none, err := some e }, { w with producerCalls := w.producerCalls + 1 }) := by
    unfold producerClosure
    rw [herr]
  refine ⟨by rw [hclosure], by rw [hclosure], by rw [hclosure], ?_⟩
  cases hfound : (getCache w.cache env.tGet "ranking").2 with
  | true =>
    obtain ⟨item, hitem, hle⟩ := (getCache_found_iff _ _ _).mp hfound
    rw [rankingHandler_found soloDo env w item.data (getCache_live _ _ _ item hitem hle)]
  | false =>
    have hclosure2 : producerClosure env { w with groupCalls := w.groupCalls + 1 } =
        ({ val := none, err := some e },
         { w with groupCalls := w.groupCalls + 1, producerCalls := w.producerCalls + 1 }) := by
      unfold producerClosure
      rw [herr]
    rw [rankingHandler_miss soloDo env w (getCache_not_found _ _ _ hfound)]
    simp [soloDo, hclosure2]

/-- C7, instance: a failing producer on the warm cache and on the initial
world. -/
theorem producerClosure_error_keeps_cache_witness :
    failEnv.producer = .error "db down" ∧
    ((producerClosure failEnv initWorld).1 = { val := none, err := some "db down" } ∧
    (producerClosure failEnv initWorld).2.setCalls = initWorld.setCalls ∧
    (producerClosure failEnv initWorld).2.cache = initWorld.cache ∧
    (rankingHandler soloDo failEnv initWorld).2.cache = initWorld.cache) :=
  ⟨rfl, producerClosure_error_keeps_cache failEnv initWorld "db down" rfl⟩

/-- C8, as stated, fails on the body: for a sole leader on a cold cache whose
producer fails, the lookup misses, `group.Do` returns a non-nil error, and the
reply is the 500 reply whose content is the fixed text followed by a line
feed, which is not the text "Internal Server Error" itself. -/
theorem rankingHandler_error_body_has_line_feed :
    (getCache initWorld.cache failEnv.tGet "ranking").2 = false ∧
    (soloDo "ranking" (producerClosure failEnv)
        { initWorld with groupCalls := initWorld.groupCalls + 1 }).1.err = some "db down" ∧
    ∃ reply, (rankingHandler soloDo failEnv initWorld).1 = some reply ∧
      reply.code = 500 ∧ reply.body = "Internal Server Error\n" ∧
      reply.body ≠ "Internal Server Error" := by
  refine ⟨by decide, rfl, ?_⟩
  rw [rankingHandler_miss soloDo failEnv initWorld (getCache_not_found _ _ _ (by decide))]
  exact ⟨_, rfl, rfl, rfl, by decide⟩

/-- C8, amended: when the lookup misses and `group.Do` returns a non-nil
error, the handler produces no payload and no status: the reply has status
code 500, its content is the fixed text "Internal Server Error" followed by a
line feed, whatever the error is, and no `X-Cache` header is set; the only
headers are the two that `http.Error` sets. -/
theorem rankingHandler_group_error (Do : GroupDo) (env : Env) (w w2 : World) (r : DoResult)
    (e : GoError)
    (hmiss : (getCache w.cache env.tGet "ranking").2 = false)
    (hdo : Do "ranking" (producerClosure env) { w with groupCalls := w.groupCalls + 1 } =
      (r, w2))
    (herr : r.err = some e) :
    ∃ reply, rankingHandler Do env w = (some reply, w2) ∧
      reply.code = 500 ∧ reply.body = "Internal Server Error" ++ "\n" ∧
      reply.xCache = none ∧
      reply.header = [("Content-Type", "text/plain; charset=utf-8"),
                      ("X-Content-Type-Options", "nosniff")] := by
  rw [rankingHandler_miss Do env w (getCache_not_found _ _ _ hmiss), hdo]
  simp only [herr]
  exact ⟨_, rfl, rfl, rfl, by simp [httpError, Reply.xCache, List.lookup], rfl⟩

/-- C8, instance: a leader whose producer fails on a cold cache. -/
theorem rankingHandler_group_error_witness :
    ((getCache initWorld.cache failEnv.tGet "ranking").2 = false ∧
      soloDo "ranking" (producerClosure failEnv)
          { initWorld with groupCalls := initWorld.groupCalls + 1 } =
        ({ val := none, err := some "db down", shared := false },
         { cache := emptyCache, groupCalls := 1, producerCalls := 1, setCalls := 0 }) ∧
      (some "db down" : Option GoError) = some "db down") ∧
    ∃ reply, rankingHandler soloDo failEnv initWorld =
        (some reply,
         { cache := emptyCache, groupCalls := 1, producerCalls := 1, setCalls := 0 }) ∧
      reply.code = 500 ∧ reply.body = "Internal Server Error" ++ "\n" ∧
      reply.xCache = none ∧
      reply.header = [("Content-Type", "text/plain; charset=utf-8"),
                      ("X-Content-Type-Options", "nosniff")] :=
  ⟨⟨by decide, rfl, rfl⟩,
   rankingHandler_group_error soloDo failEnv initWorld _ _ "db down" (by decide) rfl rfl⟩

/-- C10: with no valid entry for "ranking" and a producer that succeeds with
`r`, a request that runs as sole leader gets status MISS and invokes the
producer once; on return the cache holds for "ranking" the JSON bytes of `r`,
the same bytes as the response body, expiring ten seconds after the clock
reading of `setCache`; any request before that expiry gets HIT with the same
body and leaves the world as it is. -/
theorem rankingHandler_leader_fills_cache (env : Env) (w : World) (r : Ranking)
    (hmiss : (getCache w.cache env.tGet "ranking").2 = false)
    (hok : env.producer = .ok r) :
    ∃ reply w2, rankingHandler soloDo env w = (some reply, w2) ∧
      reply.xCache = some "MISS" ∧ reply.code = 200 ∧ reply.body = env.marshal r ∧
      w2.cache "ranking" =
        some { data := env.marshal r, expiresAt := env.tSet + 10 * second } ∧
      (w2.cache "ranking").map cacheItem.data = some reply.body ∧
      w2.producerCalls = w.producerCalls + 1 ∧
      ∀ (Do2 : GroupDo) (env2 : Env), env2.tGet < env.tSet + 10 * second →
        ∃ reply2, rankingHandler Do2 env2 w2 = (some reply2, w2) ∧
          reply2.xCache = some "HIT" ∧ reply2.body = reply.body := by
  have hclosure : producerClosure env { w with groupCalls := w.groupCalls + 1 } =
      ({ val := some (env.marshal r), err := none },
       { cache := setCache w.cache env.tSet "ranking" (env.marshal r) (10 * second),
         groupCalls := w.groupCalls + 1,
         producerCalls := w.producerCalls + 1,
         setCalls := w.setCalls + 1 }) := by
    unfold producerClosure
    rw [hok]
  have hrun : rankingHandler soloDo env w =
      (some { code := 200,
              header := [("X-Cache", "MISS"), ("Content-Type", "application/json")],
              body := env.marshal r },
       { cache := setCache w.cache env.tSet "ranking" (env.marshal r) (10 * second),
         groupCalls := w.groupCalls + 1,
         producerCalls := w.producerCalls + 1,
         setCalls := w.setCalls + 1 }) := by
    rw [rankingHandler_miss soloDo env w (getCache_not_found _ _ _ hmiss)]
    simp [soloDo, hclosure]
  refine ⟨_, _, hrun, rfl, rfl, rfl, ?_, ?_, rfl, ?_⟩
  · exact setCache_same w.cache env.tSet "ranking" (env.marshal r) (10 * second)
  · show Option.map cacheItem.data
        (setCache w.cache env.tSet "ranking" (env.marshal r) (10 * second) "ranking") = _
    rw [setCache_same]
    rfl
  · intro Do2 env2 hbefore
    refine ⟨_, rankingHandler_found Do2 env2 _ (env.marshal r) ?_, rfl, rfl⟩
    exact getCache_live (setCache w.cache env.tSet "ranking" (env.marshal r) (10 * second))
      env2.tGet "ranking" { data := env.marshal r, expiresAt := env.tSet + 10 * second }
      (setCache_same w.cache env.tSet "ranking" (env.marshal r) (10 * second))
      (le_of_lt hbefore)

/-- C10, instance: a sole leader on the initial world with a succeeding
producer. -/
theorem rankingHandler_leader_fills_cache_witness :
    ((getCache initWorld.cache okEnv.tGet "ranking").2 = false ∧
      okEnv.producer = .ok { Items := [], UpdatedAt := 1 }) ∧
    ∃ reply w2, rankingHandler soloDo okEnv initWorld = (some reply, w2) ∧
      reply.xCache = some "MISS" ∧ reply.code = 200 ∧
      reply.body = okEnv.marshal { Items := [], UpdatedAt := 1 } ∧
      w2.cache "ranking" =
        some { data := okEnv.marshal { Items := [], UpdatedAt := 1 },
               expiresAt := okEnv.tSet + 10 * second } ∧
      (w2.cache "ranking").map cacheItem.data = some reply.body ∧
      w2.producerCalls = initWorld.producerCalls + 1 ∧
      ∀ (Do2 : GroupDo) (env2 : Env), env2.tGet < okEnv.tSet + 10 * second →
        ∃ reply2, rankingHandler Do2 env2 w2 = (some reply2, w2) ∧
          reply2.xCache = some "HIT" ∧ reply2.body = reply.body :=
  ⟨⟨by decide, rfl⟩,
   rankingHandler_leader_fills_cache okEnv initWorld { Items := [], UpdatedAt := 1 }
     (by decide) rfl⟩

end Singleflight
